import Mathlib

set_option maxRecDepth 8000

/-!
Shallow embedding of the MeOS info-service client
(`src/utils/meos_info_service.py`) of the prewarning repository.

The Python module talks to an HTTP endpoint returning namespaced XML.
The embedding models:
* XML elements (`Element`) as produced by `xml.etree.ElementTree`,
  with tags written without the constant namespace prefix
  (every selector in the source is qualified by the single fixed
  namespace `http://www.melin.nu/mop`, so namespace resolution is
  plain tag-string matching);
* Python exceptions as an explicit error type `PyErr`, with fallible
  code returning `Except PyErr _`;
* the outside world of one HTTP probe (URL parsing by the `imurl`
  library, `urlopen`, and `ElementTree.fromstring`) as a `ProbeWorld`
  record of oracles, since those calls are external library code.
-/

deriving instance DecidableEq for Except

/-- XML element as produced by `xml.etree.ElementTree`: a tag, an
attribute dictionary, optional text and a list of child elements. -/
structure Element where
  tag : String
  attrib : List (String × String)
  text : Option String
  children : List Element

/-- Python exception values the service code can raise or observe. -/
inductive PyErr where
  | valueError (msg : String)
  | keyError (key : String)
  | attributeError (msg : String)
  | httpError (code : Nat)
  | urlError (reason : String)
  | parseError (msg : String)
  | invalidUrl (msg : String)
deriving DecidableEq

/-- Python `str(e)` rendering of an exception, used by the verifier
when it converts a caught exception into a result message. -/
def PyErr.toMessage : PyErr → String
  | .valueError msg => msg
  | .keyError key => "KeyError: " ++ key
  | .attributeError msg => msg
  | .httpError code => "HTTP Error " ++ toString code
  | .urlError reason => "urlopen error " ++ reason
  | .parseError msg => msg
  | .invalidUrl msg => msg

/-- `Element.find` on a direct child tag: first child with the tag, in
document order (the source only ever uses single-step namespaced child
paths such as `ns:Status`). -/
def findChild (element : Element) (tag : String) : Option Element :=
  element.children.find? (fun c => c.tag == tag)

/-- `Element.findall` on a direct child tag: every child with the tag,
preserving document order. -/
def findallChildren (element : Element) (tag : String) : List Element :=
  element.children.filter (fun c => c.tag == tag)

/-- Python `d[key]` access on an attribute dictionary: the stored value,
or a `KeyError` when the key is absent. -/
def dict_get (d : List (String × String)) (key : String) : Except PyErr String :=
  match d.find? (fun kv => kv.1 == key) with
  | some kv => .ok kv.2
  | none => .error (.keyError key)

/-- Embedding of `_get_data` (meos_info_service.py lines 25-30): text of
the first matching child, or `None` when there is no match or no text. -/
def _get_data (element : Element) (selector : String) : Option String :=
  match findChild element selector with
  | some data => data.text
  | none => none

/-- Source constant `DEFAULT_RESPONSE_ENCODING` (line 21). -/
def DEFAULT_RESPONSE_ENCODING : String := "utf-8"

/-- Embedding of the response-encoding resolution that appears verbatim
in both the lookup path (lines 161-163) and the verification path
(lines 43-45): the charset advertised by the content-type header, or
the default when none is advertised. -/
def response_encoding_of (charset : Option String) : String :=
  match charset with
  | some enc => enc
  | none => DEFAULT_RESPONSE_ENCODING

/-- An HTTP response, abstracted to the data the source consumes: the
charset advertised by the headers (`response.info().get_content_charset()`)
and the body text obtained by decoding the raw bytes under a given
encoding name (`response.read().decode(enc)`). -/
structure HttpResponse where
  charset : Option String
  decodeBody : String → String

/-- Oracles for the external library calls made during one probe:
whether `imurl.URL(url)` accepts the base URL, what `urlopen` returns,
and what `ElementTree.fromstring` makes of a body text. -/
structure ProbeWorld where
  urlParse : Except PyErr Unit
  fetch : Except PyErr HttpResponse
  parse : String → Except PyErr Element

/-- Result record of a successful lookup (the dict built at source
lines 204-207). -/
structure LookupResult where
  bibNumber : String
  relayLeg : Option String
deriving DecidableEq

/-- Modelled from the spec: the class `VerificationResult` lives in
`utils/config_definitions.py`, which is not under `src/`; spec section 3
gives its shape `{ success: bool, message: string }`, and the source
construction sites show `status` defaulting to `true` on success. -/
structure VerificationResult where
  message : String
  status : Bool
deriving DecidableEq

/-- Python `str` rendering of an optional string inside an f-string
(`None` when absent), used for the competition name in the verifier
message. -/
def pyStrOfOption : Option String → String
  | none => "None"
  | some s => s

/-- Message built at source line 52 on the verifier's success path. -/
def successMessage (compName : Option String) : String :=
  "URL is valid. Found competition \"" ++ pyStrOfOption compName ++ "\"."

namespace MeosInfoService

/-- Embedding of `MeosInfoService._has_no_result` (lines 135-145):
`False` when the runner has no `Status` child; otherwise reads the
`code` attribute (a `KeyError` when absent) and compares it to `"0"`. -/
def _has_no_result (runner : Element) : Except PyErr Bool :=
  match findChild runner "Status" with
  | none => .ok false
  | some statusElem =>
    match dict_get statusElem.attrib "code" with
    | .error e => .error e
    | .ok status => .ok (status == "0")

/-- Embedding of `next(filter(self._has_no_result, runners), None)`
(line 191): scan the candidates in document order, propagating any
exception the predicate raises, and return the first candidate for
which it holds, or `None` when none does. -/
def findFirstNoResult : List Element → Except PyErr (Option Element)
  | [] => .ok none
  | runner :: rest =>
    match _has_no_result runner with
    | .error e => .error e
    | .ok true => .ok (some runner)
    | .ok false => findFirstNoResult rest

/-- Embedding of the extraction applied to the selected candidate
(lines 195-206): absent result when there is no `Team` child, otherwise
the team's `id` attribute as the bib number (a `KeyError` when the
attribute is absent) together with the optional `Leg` text. -/
def extract_from_runner (runner : Element) : Except PyErr (Option LookupResult) :=
  match findChild runner "Team" with
  | none => .ok none
  | some teamElem =>
    match dict_get teamElem.attrib "id" with
    | .error e => .error e
    | .ok bib_number => .ok (some { bibNumber := bib_number, relayLeg := _get_data runner "Leg" })

/-- Embedding of the post-parse stage of the lookup (lines 180-206):
zero candidates yield an absent result; exactly one candidate is used
as-is; with more than one candidate the status scan picks the runner,
and when the scan selects nobody the subsequent `runner.find(...)` on
`None` raises an `AttributeError` (the behaviour of line 195 when
`runner` is `None`). -/
def process_root (root : Element) : Except PyErr (Option LookupResult) :=
  match findallChildren root "Competitor" with
  | [] => .ok none
  | [runner] => extract_from_runner runner
  | runner1 :: runner2 :: rest =>
    match findFirstNoResult (runner1 :: runner2 :: rest) with
    | .error e => .error e
    | .ok none => .error (.attributeError "NoneType object has no attribute find")
    | .ok (some runner) => extract_from_runner runner

/-- Embedding of `MeosInfoService.get_event_race_pre_warning_data`
(lines 147-206): raise a `ValueError` when the configured base URL is
missing; otherwise build the query URL (`imurl` may reject the base),
fetch (transport errors are logged and re-raised, lines 167-176),
decode the body with the resolved encoding, parse it, and process the
parsed root. -/
def get_event_race_pre_warning_data (meos_url : Option String) (w : ProbeWorld) :
    Except PyErr (Option LookupResult) :=
  match meos_url with
  | none => .error (.valueError "MeOS Info server URL must be configured.")
  | some _ =>
    match w.urlParse with
    | .error e => .error e
    | .ok _ =>
      match w.fetch with
      | .error e => .error e
      | .ok response =>
        let data := response.decodeBody (response_encoding_of response.charset)
        match w.parse data with
        | .error e => .error e
        | .ok root => process_root root

end MeosInfoService

/-- Embedding of the body of the `try` block of
`_verify_info_service_url` (lines 34-52): `ValueError` when the URL is
not configured, then URL parsing, fetch, decode with the resolved
encoding, XML parse, and on success a result whose message names the
competition read from the root. -/
def verify_attempt (url : Option String) (w : ProbeWorld) : Except PyErr VerificationResult :=
  match url with
  | none => .error (.valueError "Info service URL must be configured.")
  | some _ =>
    match w.urlParse with
    | .error e => .error e
    | .ok _ =>
      match w.fetch with
      | .error e => .error e
      | .ok response =>
        let data := response.decodeBody (response_encoding_of response.charset)
        match w.parse data with
        | .error e => .error e
        | .ok root => .ok { message := successMessage (_get_data root "competition"), status := true }

/-- Embedding of `_verify_info_service_url` (lines 33-55): the whole
attempt runs under `try`, and any exception is caught and converted to
a failure result carrying `str(e)` (lines 53-55). -/
def _verify_info_service_url (url : Option String) (w : ProbeWorld) : VerificationResult :=
  match verify_attempt url w with
  | .ok result => result
  | .error e => { message := e.toMessage, status := false }

/-- Modelled from the spec: byte classification of percent-encoding
(the query construction is performed by the external `imurl` library,
which is not code of this repository; spec sections 4.1 and 6 say the
card number is appended as a percent-encoded query parameter).
Unreserved bytes (ASCII alphanumerics and `-`, `.`, `_`, `~`) are kept
verbatim. -/
def isUnreservedByte (b : Nat) : Bool :=
  (48 ≤ b && b ≤ 57) || (65 ≤ b && b ≤ 90) || (97 ≤ b && b ≤ 122) ||
    b == 45 || b == 46 || b == 95 || b == 126

/-- Modelled from the spec: upper-case hexadecimal digit character for
a value below 16, as used by percent-escapes. -/
def hexDigitChar (n : Nat) : Char :=
  if n < 10 then Char.ofNat (48 + n) else Char.ofNat (55 + n)

/-- Modelled from the spec: percent-encoding of one byte — the byte's
own character when unreserved, otherwise `%` followed by two upper-case
hex digits. -/
def encodeByte (b : Nat) : List Char :=
  if isUnreservedByte b then [Char.ofNat b] else ['%', hexDigitChar (b / 16), hexDigitChar (b % 16)]

/-- Modelled from the spec: percent-encoding of a byte string (the
UTF-8 bytes of the card number). -/
def percentEncodeBytes : List Nat → List Char
  | [] => []
  | b :: bs => encodeByte b ++ percentEncodeBytes bs

/-- Modelled from the spec: the lookup request URL
`<baseUrl>?lookup=competitor&card=<cardNumber>` built at source lines
153-158 through `imurl.URL.set_query`, with the card number
percent-encoded (spec sections 4.1 and 6). -/
def build_lookup_url (base : String) (card : List Nat) : List Char :=
  (base.toList ++ ("?lookup=competitor&card=").toList) ++ percentEncodeBytes card

/-! Helper lemmas about the disambiguation scan. -/

lemma findFirstNoResult_first_true (pre : List Element) (r : Element) (rest : List Element)
    (hpre : ∀ x ∈ pre, MeosInfoService._has_no_result x = .ok false)
    (hr : MeosInfoService._has_no_result r = .ok true) :
    MeosInfoService.findFirstNoResult (pre ++ r :: rest) = .ok (some r) := by
  induction pre with
  | nil =>
    simp only [List.nil_append, MeosInfoService.findFirstNoResult, hr]
  | cons x xs ih =>
    have hx : MeosInfoService._has_no_result x = .ok false := hpre x (List.mem_cons_self x xs)
    simp only [List.cons_append, MeosInfoService.findFirstNoResult, hx]
    exact ih (fun y hy => hpre y (List.mem_cons_of_mem x hy))

lemma findFirstNoResult_sel_true : ∀ (runners : List Element) (r : Element),
    MeosInfoService.findFirstNoResult runners = .ok (some r) →
    MeosInfoService._has_no_result r = .ok true := by
  intro runners
  induction runners with
  | nil =>
    intro r h
    simp [MeosInfoService.findFirstNoResult] at h
  | cons x xs ih =>
    intro r h
    simp only [MeosInfoService.findFirstNoResult] at h
    cases hx : MeosInfoService._has_no_result x with
    | error e =>
      rw [hx] at h
      exact Except.noConfusion h
    | ok b =>
      rw [hx] at h
      cases b with
      | true =>
        have hxr : x = r := Option.some.inj (Except.ok.inj h)
        rw [← hxr]
        exact hx
      | false => exact ih r h

lemma process_root_multi (root : Element) (runners : List Element) (r : Element)
    (hruns : findallChildren root "Competitor" = runners)
    (hlen : 1 < runners.length)
    (hsel : MeosInfoService.findFirstNoResult runners = .ok (some r)) :
    MeosInfoService.process_root root = MeosInfoService.extract_from_runner r := by
  cases runners with
  | nil => simp at hlen
  | cons a l =>
    cases l with
    | nil => simp at hlen
    | cons b l2 =>
      simp only [MeosInfoService.process_root, hruns, hsel]

lemma get_event_ok_world (u : String) (resp : HttpResponse)
    (f : String → Except PyErr Element) (root : Element)
    (hparse : f (resp.decodeBody (response_encoding_of resp.charset)) = .ok root) :
    MeosInfoService.get_event_race_pre_warning_data (some u) ⟨.ok (), .ok resp, f⟩ =
      MeosInfoService.process_root root := by
  show (match f (resp.decodeBody (response_encoding_of resp.charset)) with
        | .error e => .error e
        | .ok root => MeosInfoService.process_root root) =
      MeosInfoService.process_root root
  rw [hparse]

/-! Concrete inputs used by the claim theorems below. -/

def plainResp : HttpResponse := ⟨none, fun _ => ""⟩

def c1Runner1 : Element := ⟨"Competitor", [], none, [⟨"Status", [("code", "1")], none, []⟩]⟩

def c1Runner2 : Element :=
  ⟨"Competitor", [], none,
    [⟨"Status", [("code", "2")], none, []⟩, ⟨"Team", [("id", "9")], none, []⟩]⟩

def c1Root : Element := ⟨"MOPComplete", [], none, [c1Runner1, c1Runner2]⟩

def c1World : ProbeWorld := ⟨.ok (), .ok plainResp, fun _ => .ok c1Root⟩

/-- Claim C1 (code_bug evidence): on a parsed response with two
`Competitor` elements neither of which has `Status/@code = "0"`, the
lookup does not produce the distinguishable unresolved-ambiguity
outcome the spec requires: the scan selects nobody and line 195
dereferences `None`, so the call crashes with an `AttributeError`
(which is also different from the absent "no match" result). -/
theorem c1_multi_none_active_crashes :
    MeosInfoService.get_event_race_pre_warning_data (some "http://localhost:2009/meos") c1World =
      .error (.attributeError "NoneType object has no attribute find") ∧
    MeosInfoService.get_event_race_pre_warning_data (some "http://localhost:2009/meos") c1World ≠
      .ok none :=
  ⟨rfl, by decide⟩

def c2Runner1 : Element := ⟨"Competitor", [], none, [⟨"Status", [("code", "1")], none, []⟩]⟩

def c2Runner2 : Element :=
  ⟨"Competitor", [], none,
    [⟨"Status", [("code", "0")], none, []⟩, ⟨"Team", [("id", "7")], none, []⟩]⟩

def c2BadRunner : Element := ⟨"Competitor", [], none, [⟨"Status", [], none, []⟩]⟩

def c2CexRoot : Element := ⟨"MOPComplete", [], none, [c2BadRunner, c2Runner2]⟩

def c2CexWorld : ProbeWorld := ⟨.ok (), .ok plainResp, fun _ => .ok c2CexRoot⟩

/-- Claim C2, counterexample to the claim as stated: a parsed response
with two `Competitor` elements where exactly the second has
`Status/@code = "0"`, but the first carries a `Status` element with no
`code` attribute. The claim says the resolver selects the second
candidate; the code instead raises a `KeyError` while scanning the
first one (line 141 `statusElem.attrib['code']`). -/
theorem c2_counterexample :
    MeosInfoService.get_event_race_pre_warning_data (some "http://localhost:2009/meos")
        c2CexWorld =
      .error (.keyError "code") ∧
    MeosInfoService.get_event_race_pre_warning_data (some "http://localhost:2009/meos")
        c2CexWorld ≠
      MeosInfoService.extract_from_runner c2Runner2 :=
  ⟨rfl, by decide⟩

/-- Claim C2 (amended): for every lookup whose parsed response contains
more than one `Competitor` element, if every candidate before the first
status-code-`"0"` candidate has a `Status` element that carries a
`code` attribute (so the scan raises no `KeyError`), the resolver
selects that first status-code-`"0"` candidate in document order —
in particular, if exactly one candidate has status code `"0"`, that
candidate, regardless of its position — and the lookup proceeds with
it. -/
theorem c2_first_active_selected (u : String) (resp : HttpResponse)
    (f : String → Except PyErr Element) (root : Element)
    (pre rest : List Element) (r : Element)
    (hparse : f (resp.decodeBody (response_encoding_of resp.charset)) = .ok root)
    (hruns : findallChildren root "Competitor" = pre ++ r :: rest)
    (hlen : 1 < (pre ++ r :: rest).length)
    (hpre : ∀ x ∈ pre, MeosInfoService._has_no_result x = .ok false)
    (hr : MeosInfoService._has_no_result r = .ok true) :
    MeosInfoService.get_event_race_pre_warning_data (some u) ⟨.ok (), .ok resp, f⟩ =
      MeosInfoService.extract_from_runner r := by
  rw [get_event_ok_world u resp f root hparse]
  exact process_root_multi root (pre ++ r :: rest) r hruns hlen
    (findFirstNoResult_first_true pre r rest hpre hr)

def c2Root : Element := ⟨"MOPComplete", [], none, [c2Runner1, c2Runner2]⟩

/-- Claim C2, witness: two candidates, only the second still racing
(status code `"0"`); the lookup proceeds with the second candidate. -/
theorem c2_witness :
    MeosInfoService.get_event_race_pre_warning_data (some "http://localhost:2009/meos")
        ⟨.ok (), .ok plainResp, fun _ => .ok c2Root⟩ =
      MeosInfoService.extract_from_runner c2Runner2 :=
  c2_first_active_selected "http://localhost:2009/meos" plainResp (fun _ => .ok c2Root) c2Root
    [c2Runner1] [] c2Runner2 rfl rfl (by decide)
    (fun x hx => by rw [List.mem_singleton] at hx; rw [hx]; rfl) rfl

/-- Claim C3: for every lookup whose parsed response contains zero
`Competitor` elements, the lookup result is absent (`None`) and no
exception is raised. -/
theorem c3_zero_candidates_absent (u : String) (resp : HttpResponse)
    (f : String → Except PyErr Element) (root : Element)
    (hparse : f (resp.decodeBody (response_encoding_of resp.charset)) = .ok root)
    (hzero : findallChildren root "Competitor" = []) :
    MeosInfoService.get_event_race_pre_warning_data (some u) ⟨.ok (), .ok resp, f⟩ =
      .ok none := by
  rw [get_event_ok_world u resp f root hparse]
  simp only [MeosInfoService.process_root, hzero]

def c3Root : Element := ⟨"MOPComplete", [], none, [⟨"Other", [], none, []⟩]⟩

/-- Claim C3, witness: a parsed response with no `Competitor` child. -/
theorem c3_witness :
    MeosInfoService.get_event_race_pre_warning_data (some "http://localhost:2009/meos")
        ⟨.ok (), .ok plainResp, fun _ => .ok c3Root⟩ =
      .ok none :=
  c3_zero_candidates_absent "http://localhost:2009/meos" plainResp (fun _ => .ok c3Root)
    c3Root rfl rfl

/-- Claim C4: for every lookup whose parsed response contains exactly
one `Competitor` element, that candidate is used as the result without
any status filtering (no hypothesis about its `Status` is needed). -/
theorem c4_single_candidate_used (u : String) (resp : HttpResponse)
    (f : String → Except PyErr Element) (root : Element) (r : Element)
    (hparse : f (resp.decodeBody (response_encoding_of resp.charset)) = .ok root)
    (hone : findallChildren root "Competitor" = [r]) :
    MeosInfoService.get_event_race_pre_warning_data (some u) ⟨.ok (), .ok resp, f⟩ =
      MeosInfoService.extract_from_runner r := by
  rw [get_event_ok_world u resp f root hparse]
  simp only [MeosInfoService.process_root, hone]

def c4Runner : Element :=
  ⟨"Competitor", [], none,
    [⟨"Status", [("code", "1")], none, []⟩,
     ⟨"Team", [("id", "42")], none, []⟩,
     ⟨"Leg", [], some "2", []⟩]⟩

def c4Root : Element := ⟨"MOPComplete", [], none, [c4Runner]⟩

/-- Claim C4, witness: exactly one `Competitor`, with `Team/@id = "42"`
and `Leg` text `"2"` (and a non-`"0"` status, which is ignored); the
lookup returns `{bibNumber := "42", relayLeg := "2"}`. -/
theorem c4_witness :
    MeosInfoService.get_event_race_pre_warning_data (some "http://localhost:2009/meos")
        ⟨.ok (), .ok plainResp, fun _ => .ok c4Root⟩ =
      .ok (some { bibNumber := "42", relayLeg := some "2" }) :=
  (c4_single_candidate_used "http://localhost:2009/meos" plainResp (fun _ => .ok c4Root)
    c4Root c4Runner rfl rfl).trans rfl

/-- Claim C5: for every selected `Competitor` candidate with no `Team`
child element, the extraction stage that the lookup applies to the
selected candidate (both in the single-candidate branch and after the
disambiguation scan) yields the absent result `None` rather than an
error. -/
theorem c5_no_team_absent (runner : Element)
    (hteam : findChild runner "Team" = none) :
    MeosInfoService.extract_from_runner runner = .ok none := by
  simp only [MeosInfoService.extract_from_runner, hteam]

def c5Runner : Element := ⟨"Competitor", [], none, [⟨"Status", [("code", "0")], none, []⟩]⟩

/-- Claim C5, witness: a competitor with no `Team` child. -/
theorem c5_witness : MeosInfoService.extract_from_runner c5Runner = .ok none :=
  c5_no_team_absent c5Runner rfl

/-- Claim C7: for every world (in particular, whatever the network
would answer), calling the lookup with a missing (None) configured
base URL raises the configuration `ValueError` of source line 151 to
the caller; no request is consulted and the result is not the absent
value. -/
theorem c7_missing_url_raises (w : ProbeWorld) :
    MeosInfoService.get_event_race_pre_warning_data none w =
      .error (.valueError "MeOS Info server URL must be configured.") :=
  rfl

/-- Claim C10: a `Competitor` element with no `Status` child never
satisfies the "has no result yet" predicate, and is therefore never the
candidate selected by the status-code-`"0"` scan of the
multiple-candidate case. -/
theorem c10_statusless_not_selected (runner : Element) (runners : List Element)
    (hstatus : findChild runner "Status" = none) :
    MeosInfoService._has_no_result runner = .ok false ∧
      MeosInfoService.findFirstNoResult runners ≠ .ok (some runner) := by
  have h1 : MeosInfoService._has_no_result runner = .ok false := by
    simp only [MeosInfoService._has_no_result, hstatus]
  refine ⟨h1, fun hsel => ?_⟩
  have h2 := findFirstNoResult_sel_true runners runner hsel
  rw [h1] at h2
  exact Bool.noConfusion (Except.ok.inj h2)

def c10Runner : Element := ⟨"Competitor", [], none, [⟨"Team", [("id", "3")], none, []⟩]⟩

def c10Active : Element := ⟨"Competitor", [], none, [⟨"Status", [("code", "0")], none, []⟩]⟩

/-- Claim C10, witness: a status-less competitor listed first is still
not the one the scan returns. -/
theorem c10_witness :
    MeosInfoService._has_no_result c10Runner = .ok false ∧
      MeosInfoService.findFirstNoResult [c10Runner, c10Active] ≠ .ok (some c10Runner) :=
  c10_statusless_not_selected c10Runner [c10Runner, c10Active] rfl

/-- Claim C6: for every input URL (including a missing one) and every
behaviour of the probed endpoint (unreachable host, malformed XML,
missing competition field, ...), the verifier returns a
`VerificationResult` value — it is a total function — and that value
either reports success with the message naming the competition read
from the response, or reports failure with the message derived from
the exception that occurred. -/
theorem c6_verify_total_outcome (url : Option String) (w : ProbeWorld) :
    (∃ (u : String) (resp : HttpResponse) (root : Element),
      url = some u ∧ w.urlParse = .ok () ∧ w.fetch = .ok resp ∧
      w.parse (resp.decodeBody (response_encoding_of resp.charset)) = .ok root ∧
      _verify_info_service_url url w =
        { message := successMessage (_get_data root "competition"), status := true }) ∨
    (∃ e : PyErr, _verify_info_service_url url w = { message := e.toMessage, status := false }) := by
  cases url with
  | none =>
    exact Or.inr ⟨.valueError "Info service URL must be configured.", rfl⟩
  | some u =>
    cases hup : w.urlParse with
    | error e =>
      exact Or.inr ⟨e, by simp [_verify_info_service_url, verify_attempt, hup]⟩
    | ok unitv =>
      cases unitv
      cases hf : w.fetch with
      | error e =>
        exact Or.inr ⟨e, by simp [_verify_info_service_url, verify_attempt, hup, hf]⟩
      | ok resp =>
        cases hp : w.parse (resp.decodeBody (response_encoding_of resp.charset)) with
        | error e =>
          exact Or.inr ⟨e, by simp [_verify_info_service_url, verify_attempt, hup, hf, hp]⟩
        | ok root =>
          exact Or.inl ⟨u, resp, root, rfl, rfl, rfl, hp,
            by simp [_verify_info_service_url, verify_attempt, hup, hf, hp]⟩

/-- Claim C8: the encoding used to decode a response body is the
charset advertised by the content-type header when present and the
default `"utf-8"` when absent, and in both the lookup path and the
verification path the text handed to the XML parser is exactly the
body decoded under that resolved encoding. -/
theorem c8_encoding_resolution :
    (∀ enc, response_encoding_of (some enc) = enc) ∧
    response_encoding_of none = DEFAULT_RESPONSE_ENCODING ∧
    DEFAULT_RESPONSE_ENCODING = "utf-8" ∧
    (∀ (u : String) (resp : HttpResponse) (f : String → Except PyErr Element),
      MeosInfoService.get_event_race_pre_warning_data (some u) ⟨.ok (), .ok resp, f⟩ =
        match f (resp.decodeBody (response_encoding_of resp.charset)) with
        | .error e => .error e
        | .ok root => MeosInfoService.process_root root) ∧
    (∀ (u : String) (resp : HttpResponse) (f : String → Except PyErr Element),
      _verify_info_service_url (some u) ⟨.ok (), .ok resp, f⟩ =
        match f (resp.decodeBody (response_encoding_of resp.charset)) with
        | .error e => { message := PyErr.toMessage e, status := false }
        | .ok root => { message := successMessage (_get_data root "competition"), status := true }) := by
  refine ⟨fun enc => rfl, rfl, rfl, fun u resp f => rfl, fun u resp f => ?_⟩
  cases hp : f (resp.decodeBody (response_encoding_of resp.charset)) with
  | error e => simp [_verify_info_service_url, verify_attempt, hp]
  | ok root => simp [_verify_info_service_url, verify_attempt, hp]

/-! Helper lemmas for the percent-encoding model. -/

lemma char_toNat_ofNat_byte : ∀ a, a < 256 → (Char.ofNat a).toNat = a := by decide

lemma hexDigitChar_ne_percent : ∀ a, a < 16 → hexDigitChar a ≠ '%' := by decide

lemma hexDigitChar_inj : ∀ a, a < 16 → ∀ b, b < 16 → hexDigitChar a = hexDigitChar b → a = b := by
  decide

lemma unreserved_ne_percent : ∀ a, a < 256 → isUnreservedByte a = true → Char.ofNat a ≠ '%' := by
  decide

lemma encodeByte_ne_nil (b : Nat) : encodeByte b ≠ [] := by
  unfold encodeByte
  split <;> simp

lemma encodeByte_append_inj (b1 b2 : Nat) (h1 : b1 < 256) (h2 : b2 < 256)
    (s1 s2 : List Char) (h : encodeByte b1 ++ s1 = encodeByte b2 ++ s2) :
    b1 = b2 ∧ s1 = s2 := by
  unfold encodeByte at h
  by_cases u1 : isUnreservedByte b1 = true <;> by_cases u2 : isUnreservedByte b2 = true <;>
    simp only [u1, u2, if_true, if_false, Bool.false_eq_true, if_neg, ite_false, ite_true,
      List.cons_append, List.nil_append, List.cons.injEq] at h
  case pos =>
    refine ⟨?_, h.2⟩
    have := congrArg Char.toNat h.1
    rw [char_toNat_ofNat_byte b1 h1, char_toNat_ofNat_byte b2 h2] at this
    exact this
  case neg =>
    exact absurd h.1 (unreserved_ne_percent b1 h1 u1)
  case pos =>
    exact absurd h.1.symm (unreserved_ne_percent b2 h2 u2)
  case neg =>
    obtain ⟨hd, hm, hs⟩ := h.2
    have d1 : b1 / 16 < 16 := by omega
    have d2 : b2 / 16 < 16 := by omega
    have m1 : b1 % 16 < 16 := by omega
    have m2 : b2 % 16 < 16 := by omega
    have ed := hexDigitChar_inj _ d1 _ d2 hd
    have em := hexDigitChar_inj _ m1 _ m2 hm
    exact ⟨by omega, hs⟩

lemma percentEncodeBytes_inj : ∀ (c1 c2 : List Nat),
    (∀ b ∈ c1, b < 256) → (∀ b ∈ c2, b < 256) →
    percentEncodeBytes c1 = percentEncodeBytes c2 → c1 = c2 := by
  intro c1
  induction c1 with
  | nil =>
    intro c2 _ _ h
    cases c2 with
    | nil => rfl
    | cons b bs =>
      exfalso
      simp only [percentEncodeBytes] at h
      exact encodeByte_ne_nil b ((List.append_eq_nil.mp h.symm).1)
  | cons b bs ih =>
    intro c2 hc1 hc2 h
    cases c2 with
    | nil =>
      exfalso
      simp only [percentEncodeBytes] at h
      exact encodeByte_ne_nil b ((List.append_eq_nil.mp h).1)
    | cons b2 bs2 =>
      simp only [percentEncodeBytes] at h
      obtain ⟨hb, hs⟩ := encodeByte_append_inj b b2 (hc1 b (by simp)) (hc2 b2 (by simp)) _ _ h
      rw [hb, ih bs2 (fun x hx => hc1 x (by simp [hx])) (fun x hx => hc2 x (by simp [hx])) hs]

/-- Claim C9: for a fixed base URL, two distinct card numbers (as byte
strings) never produce the same lookup request URL — the query URL
construction is injective over card numbers. -/
theorem c9_lookup_url_injective (base : String) (card1 card2 : List Nat)
    (h1 : ∀ b ∈ card1, b < 256) (h2 : ∀ b ∈ card2, b < 256)
    (hne : card1 ≠ card2) :
    build_lookup_url base card1 ≠ build_lookup_url base card2 := by
  intro h
  unfold build_lookup_url at h
  exact hne (percentEncodeBytes_inj card1 card2 h1 h2 (List.append_cancel_left h))

/-- Claim C9, witness: the cards `"1"` and `"2"` give different URLs. -/
theorem c9_witness :
    build_lookup_url "http://localhost:2009/meos" [49] ≠
      build_lookup_url "http://localhost:2009/meos" [50] :=
  c9_lookup_url_injective "http://localhost:2009/meos" [49] [50]
    (by decide) (by decide) (by decide)
